import Mathlib

/-!
Shallow embedding of the agent-coordination server of
`scheduler/pkg/agent/server.go`: the replica-state data model, the
reconciliation routine `Server.Sync`, the report-ingestion handler
`Server.AgentEvent`, and the connection lifecycle of `Server.Subscribe`
and `Server.syncMessage`.  External collaborators (ModelStore, Scheduler,
the gRPC transport) are modelled as outcome oracles; each handler is
embedded as a function from its inputs and oracles to the trace of
externally visible effects it performs, in the order the Go code
performs them.
-/

namespace SeldonAgent

/-- `store.ModelReplicaState`: per-(model-version, replica) state enum. -/
inductive ModelReplicaState
  | ModelReplicaStateUnknown
  | LoadRequested
  | Loading
  | Loaded
  | LoadFailed
  | UnloadRequested
  | Unloading
  | Unloaded
deriving DecidableEq, Repr

/-- `ServerKey`: composite registry key (server name, replica index). -/
structure ServerKey where
  serverName : String
  replicaIdx : Nat
deriving DecidableEq, Repr

/-- `pb.ModelOperationMessage_Operation`: the outbound command kind. -/
inductive ModelOperation
  | LOAD_MODEL
  | UNLOAD_MODEL
deriving DecidableEq, Repr

/-- One version of a model as read from the store: immutable descriptor
(model name, version number, assigned server) plus the mutable
per-replica state table (`replicas map[int]ReplicaStatus` in the store,
embedded as an association list from replica index to state). -/
structure ModelVersion where
  model : String
  version : Nat
  server : String
  replicaStates : List (Nat × ModelReplicaState)
deriving DecidableEq, Repr

/-- `modelVersion.Key()`: the model key (its name). -/
def ModelVersion.Key (mv : ModelVersion) : String := mv.model

/-- `modelVersion.GetModel()`: the model name carried in the wire message. -/
def ModelVersion.GetModel (mv : ModelVersion) : String := mv.model

/-- `modelVersion.GetVersion()`. -/
def ModelVersion.GetVersion (mv : ModelVersion) : Nat := mv.version

/-- `modelVersion.Server()`. -/
def ModelVersion.Server (mv : ModelVersion) : String := mv.server

/-- `modelVersion.GetReplicaForState(state)`: the replica indices whose
recorded state equals `st`. -/
def ModelVersion.GetReplicaForState (mv : ModelVersion) (st : ModelReplicaState) :
    List Nat :=
  (mv.replicaStates.filter (fun p => decide (p.2 = st))).map Prod.fst

/-- A model as read from the store: its tracked versions, oldest first. -/
structure Model where
  Versions : List ModelVersion
deriving DecidableEq, Repr

/-- Modelled from the spec: `model.GetLatest()` lives in the external
ModelStore, not in the shown source; the spec says a model's versions are
tracked concurrently and only the *latest* is eligible for new load
commands, so `GetLatest` returns the newest (last-appended) version, or
nothing when the model has no versions. -/
def Model.GetLatest (m : Model) : Option ModelVersion := m.Versions.getLast?

/-- One externally visible effect of a reconciliation pass, in program
order: a stream send attempt (with its transport outcome) or a
`store.UpdateModelState` call (with its persistence outcome).  The
`memory` argument is the optional available-memory figure and `msg` the
optional message string passed to the store. -/
inductive SyncEvent
  | send (key : ServerKey) (op : ModelOperation) (model : String) (version : Nat)
      (ok : Bool)
  | update (modelKey : String) (version : Nat) (server : String) (replicaIdx : Nat)
      (memory : Option Nat) (state : ModelReplicaState) (msg : String) (ok : Bool)
deriving DecidableEq, Repr

/-- The environment a reconciliation pass runs against: the registry of
connected replicas (`s.agents`, read under the shared lock) and the
outcome oracles for the two fallible external calls, `stream.Send` and
`store.UpdateModelState`. -/
structure World where
  agents : Finset ServerKey
  sendOk : ServerKey → ModelOperation → String → Nat → Bool
  updateOk : String → Nat → String → Nat → Option Nat → ModelReplicaState → String → Bool

/-- The per-replica body of the load loop of `Server.Sync` (lines
103-126): resolve the connection; if absent, skip; otherwise send
`LOAD_MODEL` and, only when the send succeeded, call
`UpdateModelState(..., Loading, "")`. -/
def syncLoadReplica (w : World) (lv : ModelVersion) (replicaIdx : Nat) :
    List SyncEvent :=
  let key : ServerKey := ⟨lv.Server, replicaIdx⟩
  if key ∈ w.agents then
    if w.sendOk key .LOAD_MODEL lv.GetModel lv.GetVersion then
      [.send key .LOAD_MODEL lv.GetModel lv.GetVersion true,
       .update lv.Key lv.GetVersion lv.Server replicaIdx none .Loading ""
         (w.updateOk lv.Key lv.GetVersion lv.Server replicaIdx none .Loading "")]
    else
      [.send key .LOAD_MODEL lv.GetModel lv.GetVersion false]
  else []

/-- The per-replica body of the unload loop of `Server.Sync` (lines
131-151): same shape, with `UNLOAD_MODEL` and `Unloading`. -/
def syncUnloadReplica (w : World) (mv : ModelVersion) (replicaIdx : Nat) :
    List SyncEvent :=
  let key : ServerKey := ⟨mv.Server, replicaIdx⟩
  if key ∈ w.agents then
    if w.sendOk key .UNLOAD_MODEL mv.GetModel mv.GetVersion then
      [.send key .UNLOAD_MODEL mv.GetModel mv.GetVersion true,
       .update mv.Key mv.GetVersion mv.Server replicaIdx none .Unloading ""
         (w.updateOk mv.Key mv.GetVersion mv.Server replicaIdx none .Unloading "")]
    else
      [.send key .UNLOAD_MODEL mv.GetModel mv.GetVersion false]
  else []

/-- The load loop of `Server.Sync` (lines 100-127): the `LoadRequested`
replicas of the latest version only. -/
def syncLoads (w : World) (m : Model) : List SyncEvent :=
  match m.GetLatest with
  | none => []
  | some lv => (lv.GetReplicaForState .LoadRequested).flatMap (syncLoadReplica w lv)

/-- The unload loop of `Server.Sync` (lines 129-152): every version's
`UnloadRequested` replicas. -/
def syncUnloads (w : World) (m : Model) : List SyncEvent :=
  m.Versions.flatMap (fun mv =>
    (mv.GetReplicaForState .UnloadRequested).flatMap (syncUnloadReplica w mv))

/-- `Server.Sync(modelName)` (lines 85-153), as the trace of effects of
one reconciliation pass.  `getModel` is the result of
`store.GetModel(modelName)`: an error, no model, or the model.  On error
or missing model the pass logs and performs nothing.  Otherwise the load
loop runs over the `LoadRequested` replicas of the latest version only,
then the unload loop over the `UnloadRequested` replicas of every
version. -/
def Server.Sync (w : World) (getModel : Except String (Option Model)) :
    List SyncEvent :=
  match getModel with
  | .error _ => []
  | .ok none => []
  | .ok (some m) => syncLoads w m ++ syncUnloads w m

/-- The store's per-replica state table, keyed exactly as
`UpdateModelState` is keyed: (model key, version, server name, replica
index). -/
def StoreState := String → Nat → String → Nat → ModelReplicaState

/-- How one trace event acts on the store state: a successful
`UpdateModelState` call writes its state at its key; everything else
(sends, failed updates) leaves the store unchanged. -/
def applyEvent (st : StoreState) : SyncEvent → StoreState
  | .update mk v sv r _ s _ true => fun mk2 v2 sv2 r2 =>
      if mk2 = mk ∧ v2 = v ∧ sv2 = sv ∧ r2 = r then s else st mk2 v2 sv2 r2
  | _ => st

/-- The store state after a trace of effects has been applied in order. -/
def stateAfter (st : StoreState) (events : List SyncEvent) : StoreState :=
  events.foldl applyEvent st

/-- Modelled from the spec: the report's event kind
(`pb.ModelEventMessage_Event`).  The protobuf enum is not in the shown
source; the spec names the kinds `LOADED`, `UNLOADED`, `LOAD_FAILED`,
`LOAD_FAIL_MEMORY` and says any other kind may arrive (the protocol is
forward-compatible), so every other wire value is embedded as
`OtherEvent code`. -/
inductive AgentEventKind
  | LOADED
  | UNLOADED
  | LOAD_FAILED
  | LOAD_FAIL_MEMORY
  | OtherEvent (code : Nat)
deriving DecidableEq, Repr

/-- `pb.ModelEventMessage`: a replica's status report. -/
structure ModelEventMessage where
  ModelName : String
  ModelVersion : Nat
  ServerName : String
  ReplicaIdx : Nat
  Event : AgentEventKind
  AvailableMemoryBytes : Nat
  Message : String
deriving DecidableEq, Repr

/-- The arguments of one `store.UpdateModelState` call. -/
structure UpdateCall where
  modelKey : String
  version : Nat
  server : String
  replicaIdx : Nat
  memory : Option Nat
  state : ModelReplicaState
  msg : String
deriving DecidableEq, Repr

/-- gRPC status codes used by the handler. -/
inductive GrpcCode
  | Internal
deriving DecidableEq, Repr

/-- The switch statement of `Server.AgentEvent` (lines 158-168): map the
report's event kind to the replica state to persist. -/
def eventToState : AgentEventKind → ModelReplicaState
  | .LOADED => .Loaded
  | .UNLOADED => .Unloaded
  | .LOAD_FAILED => .LoadFailed
  | .LOAD_FAIL_MEMORY => .LoadFailed
  | .OtherEvent _ => .ModelReplicaStateUnknown

/-- `Server.AgentEvent` (lines 155-176), embedded as the
`UpdateModelState` call it issues together with its return value.
`updateErr` is the store oracle: `none` means the call persisted, `some
e` that it failed with error `e`.  The Go handler always passes the
address of the report's memory figure, so `memory` is always `some`;
on store failure it returns `status.Error(codes.Internal, err)`. -/
def Server.AgentEvent (updateErr : UpdateCall → Option String)
    (message : ModelEventMessage) :
    Except (GrpcCode × String) Unit × UpdateCall :=
  let call : UpdateCall :=
    ⟨message.ModelName, message.ModelVersion, message.ServerName,
     message.ReplicaIdx, some message.AvailableMemoryBytes,
     eventToState message.Event, message.Message⟩
  (match updateErr call with
   | some e => .error (.Internal, e)
   | none => .ok (), call)

/-- How a `Subscribe` handler's blocking select (lines 198-221) is woken:
by the explicit close signal on the `finished` channel, or by the stream
context closing on peer disconnect. -/
inductive CloseSignal
  | finishedChan
  | ctxDone
deriving DecidableEq, Repr

/-- The collaborator outcomes a `Subscribe` call runs against:
`store.AddServerReplica`, `scheduler.ScheduleFailedModels`,
`store.RemoveServerReplica` (the affected model names and its error),
and `scheduler.Schedule` per model name. -/
structure SubscribeEnv where
  addServerReplicaErr : Option String
  scheduleFailedErr : Option String
  removeServerReplica : List String × Option String
  scheduleErr : String → Option String

/-- `Server.syncMessage` (lines 224-238): add the replica to the store;
on error return it; otherwise retry scheduling of failed models and
return its error, if any. -/
def Server.syncMessage (env : SubscribeEnv) : Option String :=
  match env.addServerReplicaErr with
  | some e => some e
  | none => env.scheduleFailedErr

/-- What one `Server.Subscribe` call did: the registry contents when the
handler returned, the `scheduler.Schedule` invocations made (model name
paired with that call's outcome), whether `store.RemoveServerReplica`
was called, and the handler's return value (`none` = nil error). -/
structure SubscribeResult where
  agents : Finset ServerKey
  scheduleCalls : List (String × Option String)
  removeReplicaCalled : Bool
  result : Option String
deriving DecidableEq

/-- The reschedule loop of the disconnect branch (lines 213-218): call
`scheduler.Schedule` for each changed model in order; a failure is only
logged, so the loop continues regardless of each outcome. -/
def scheduleLoop (scheduleErr : String → Option String) :
    List String → List (String × Option String)
  | [] => []
  | m :: rest => (m, scheduleErr m) :: scheduleLoop scheduleErr rest

/-- `Server.Subscribe` (lines 178-222): install the connection record
under the exclusive lock, run `syncMessage` and return its error if it
failed, then block until one close signal arrives.  On the explicit
`finished` signal: return nil, nothing else.  On peer disconnect: remove
the registry entry, call `store.RemoveServerReplica`, and invoke
`scheduler.Schedule` once per returned model name, continuing past
failures. -/
def Server.Subscribe (agents0 : Finset ServerKey) (key : ServerKey)
    (env : SubscribeEnv) (signal : CloseSignal) : SubscribeResult :=
  let agents1 := insert key agents0
  match Server.syncMessage env with
  | some e => ⟨agents1, [], false, some e⟩
  | none =>
    match signal with
    | .finishedChan => ⟨agents1, [], false, none⟩
    | .ctxDone =>
      ⟨agents1.erase key, scheduleLoop env.scheduleErr env.removeServerReplica.1,
       true, none⟩

@[simp] theorem ModelVersion.Key_eq (mv : ModelVersion) : mv.Key = mv.model := rfl

@[simp] theorem ModelVersion.GetModel_eq (mv : ModelVersion) :
    mv.GetModel = mv.model := rfl

@[simp] theorem ModelVersion.GetVersion_eq (mv : ModelVersion) :
    mv.GetVersion = mv.version := rfl

@[simp] theorem ModelVersion.Server_eq (mv : ModelVersion) :
    mv.Server = mv.server := rfl

/-- Any event of a load-loop block comes from a connected replica and is
either the `LOAD_MODEL` send attempt or, only when that send succeeded,
the `UpdateModelState` call to `Loading`. -/
theorem mem_syncLoadReplica {w : World} {lv : ModelVersion} {r : Nat} {e : SyncEvent}
    (h : e ∈ syncLoadReplica w lv r) :
    (⟨lv.server, r⟩ : ServerKey) ∈ w.agents ∧
    (e = .send ⟨lv.server, r⟩ .LOAD_MODEL lv.model lv.version
        (w.sendOk ⟨lv.server, r⟩ .LOAD_MODEL lv.model lv.version) ∨
     (w.sendOk ⟨lv.server, r⟩ .LOAD_MODEL lv.model lv.version = true ∧
      e = .update lv.model lv.version lv.server r none .Loading ""
        (w.updateOk lv.model lv.version lv.server r none .Loading ""))) := by
  simp only [syncLoadReplica, ModelVersion.Server_eq, ModelVersion.GetModel_eq,
    ModelVersion.GetVersion_eq, ModelVersion.Key_eq] at h
  split_ifs at h with h1 h2
  · rcases List.mem_pair.mp h with h | h
    · exact ⟨h1, .inl (by rw [h, h2])⟩
    · exact ⟨h1, .inr ⟨h2, h⟩⟩
  · rcases List.mem_singleton.mp h with h
    refine ⟨h1, .inl ?_⟩
    rw [h, Bool.not_eq_true] at *
    rw [h2]
  · simp at h

/-- Same characterization for an unload-loop block. -/
theorem mem_syncUnloadReplica {w : World} {mv : ModelVersion} {r : Nat} {e : SyncEvent}
    (h : e ∈ syncUnloadReplica w mv r) :
    (⟨mv.server, r⟩ : ServerKey) ∈ w.agents ∧
    (e = .send ⟨mv.server, r⟩ .UNLOAD_MODEL mv.model mv.version
        (w.sendOk ⟨mv.server, r⟩ .UNLOAD_MODEL mv.model mv.version) ∨
     (w.sendOk ⟨mv.server, r⟩ .UNLOAD_MODEL mv.model mv.version = true ∧
      e = .update mv.model mv.version mv.server r none .Unloading ""
        (w.updateOk mv.model mv.version mv.server r none .Unloading ""))) := by
  simp only [syncUnloadReplica, ModelVersion.Server_eq, ModelVersion.GetModel_eq,
    ModelVersion.GetVersion_eq, ModelVersion.Key_eq] at h
  split_ifs at h with h1 h2
  · rcases List.mem_pair.mp h with h | h
    · exact ⟨h1, .inl (by rw [h, h2])⟩
    · exact ⟨h1, .inr ⟨h2, h⟩⟩
  · rcases List.mem_singleton.mp h with h
    refine ⟨h1, .inl ?_⟩
    rw [Bool.not_eq_true] at h2
    rw [h, h2]
  · simp at h

/-- Every event of a reconciliation trace originates in a load-loop block
of the latest version or in an unload-loop block of some version. -/
theorem mem_sync_cases {w : World} {m : Model} {e : SyncEvent}
    (h : e ∈ Server.Sync w (.ok (some m))) :
    (∃ lv, m.GetLatest = some lv ∧ ∃ r ∈ lv.GetReplicaForState .LoadRequested,
        e ∈ syncLoadReplica w lv r) ∨
    (∃ mv ∈ m.Versions, ∃ r ∈ mv.GetReplicaForState .UnloadRequested,
        e ∈ syncUnloadReplica w mv r) := by
  replace h : e ∈ syncLoads w m ++ syncUnloads w m := h
  rcases List.mem_append.mp h with h | h
  · unfold syncLoads at h
    cases hl : m.GetLatest with
    | none => rw [hl] at h; simp at h
    | some lv =>
      rw [hl] at h
      obtain ⟨r, hr, he⟩ := List.mem_flatMap.mp h
      exact .inl ⟨lv, rfl, r, hr, he⟩
  · right
    unfold syncUnloads at h
    obtain ⟨mv, hmv, h⟩ := List.mem_flatMap.mp h
    obtain ⟨r, hr, he⟩ := List.mem_flatMap.mp h
    exact ⟨mv, hmv, r, hr, he⟩

theorem isInfix_append_left {α : Type} {l l1 : List α} (l2 : List α)
    (h : l <:+: l1) : l <:+: l1 ++ l2 := by
  obtain ⟨s, t, rfl⟩ := h
  exact ⟨s, t ++ l2, by simp⟩

theorem isInfix_append_right {α : Type} {l l2 : List α} (l1 : List α)
    (h : l <:+: l2) : l <:+: l1 ++ l2 := by
  obtain ⟨s, t, rfl⟩ := h
  exact ⟨l1 ++ s, t, by simp⟩

theorem block_infix_flatMap {α β : Type} {a : α} {l : List α} (f : α → List β)
    (h : a ∈ l) : f a <:+: l.flatMap f := by
  rw [List.flatMap]
  exact List.infix_of_mem_flatten (List.mem_map_of_mem f h)

/-- An event that is not the successful update of the key
(mk, v, sv, r) leaves that cell of the store untouched. -/
theorem applyEvent_eq_of_ne {st : StoreState} {e : SyncEvent}
    {mk : String} {v : Nat} {sv : String} {r : Nat}
    (h : ∀ mem s msg, e ≠ .update mk v sv r mem s msg true) :
    applyEvent st e mk v sv r = st mk v sv r := by
  cases e with
  | send => rfl
  | update mk2 v2 sv2 r2 mem s msg ok =>
    cases ok with
    | false => rfl
    | true =>
      simp only [applyEvent]
      rw [if_neg]
      rintro ⟨rfl, rfl, rfl, rfl⟩
      exact h mem s msg rfl

/-- A trace holding no successful update of the key (mk, v, sv, r)
leaves that cell of the store at its initial value. -/
theorem stateAfter_eq_of_no_update {mk : String} {v : Nat} {sv : String} {r : Nat}
    {events : List SyncEvent}
    (h : ∀ mem s msg, SyncEvent.update mk v sv r mem s msg true ∉ events)
    (st : StoreState) :
    stateAfter st events mk v sv r = st mk v sv r := by
  induction events generalizing st with
  | nil => rfl
  | cons e rest ih =>
    have hrest : ∀ mem s msg, SyncEvent.update mk v sv r mem s msg true ∉ rest :=
      fun mem s msg hm => h mem s msg (List.mem_cons_of_mem e hm)
    have hne : ∀ mem s msg, e ≠ .update mk v sv r mem s msg true :=
      fun mem s msg he => h mem s msg (he ▸ List.mem_cons_self e rest)
    show stateAfter (applyEvent st e) rest mk v sv r = st mk v sv r
    rw [ih hrest, applyEvent_eq_of_ne hne]

/-- The registry key an event addresses: the send's target, or the
update's (server, replica index) pair. -/
def SyncEvent.key : SyncEvent → ServerKey
  | .send key _ _ _ _ => key
  | .update _ _ sv r _ _ _ _ => ⟨sv, r⟩

/-- Every event of a reconciliation trace addresses a replica that was
found in the agents registry. -/
theorem mem_sync_connected {w : World} {gm : Except String (Option Model)}
    {e : SyncEvent} (h : e ∈ Server.Sync w gm) : e.key ∈ w.agents := by
  match gm with
  | .error _ => simp [Server.Sync] at h
  | .ok none => simp [Server.Sync] at h
  | .ok (some m) =>
    rcases mem_sync_cases h with ⟨lv, _, r, _, he⟩ | ⟨mv, _, r, _, he⟩
    · obtain ⟨hconn, hc | ⟨_, hc⟩⟩ := mem_syncLoadReplica he <;>
        rw [hc] <;> exact hconn
    · obtain ⟨hconn, hc | ⟨_, hc⟩⟩ := mem_syncUnloadReplica he <;>
        rw [hc] <;> exact hconn

/-- The `UpdateModelState` call `AgentEvent` issues is keyed by the
report's identifiers and carries the mapped state and the report's
memory figure and message. -/
theorem AgentEvent_call (updateErr : UpdateCall → Option String)
    (message : ModelEventMessage) :
    (Server.AgentEvent updateErr message).2 =
      ⟨message.ModelName, message.ModelVersion, message.ServerName,
       message.ReplicaIdx, some message.AvailableMemoryBytes,
       eventToState message.Event, message.Message⟩ := rfl

/-- Every state the reconciliation pass writes is a command-path
state. -/
theorem sync_update_state_cases {w : World} {gm : Except String (Option Model)}
    {mk : String} {v : Nat} {sv : String} {r : Nat} {mem : Option Nat}
    {s : ModelReplicaState} {msg : String} {ok : Bool}
    (h : SyncEvent.update mk v sv r mem s msg ok ∈ Server.Sync w gm) :
    s = .Loading ∨ s = .Unloading := by
  match gm with
  | .error _ => simp [Server.Sync] at h
  | .ok none => simp [Server.Sync] at h
  | .ok (some m) =>
    rcases mem_sync_cases h with ⟨lv, _, r2, _, he⟩ | ⟨mv, _, r2, _, he⟩
    · rcases mem_syncLoadReplica he with ⟨_, hc | ⟨_, hc⟩⟩
      · exact absurd hc (by simp)
      · cases hc; exact .inl rfl
    · rcases mem_syncUnloadReplica he with ⟨_, hc | ⟨_, hc⟩⟩
      · exact absurd hc (by simp)
      · cases hc; exact .inr rfl

/-- The handler's return value, written as a function of the store
outcome for the call it issued. -/
theorem AgentEvent_fst (updateErr : UpdateCall → Option String)
    (message : ModelEventMessage) :
    (Server.AgentEvent updateErr message).1 =
      (match updateErr (Server.AgentEvent updateErr message).2 with
       | some e => .error (.Internal, e)
       | none => .ok ()) := rfl

/-- A concrete model used to exercise the theorems: "iris" has one
version, assigned to server "serverA", whose replica 0 is in
`LoadRequested`. -/
def exampleVersion : ModelVersion :=
  ⟨"iris", 1, "serverA", [(0, .LoadRequested)]⟩

def exampleModel : Model := ⟨[exampleVersion]⟩

/-- A world where replica ("serverA", 0) is connected and transport and
store always succeed. -/
def exampleWorld : World where
  agents := {⟨"serverA", 0⟩}
  sendOk := fun _ _ _ _ => true
  updateOk := fun _ _ _ _ _ _ _ => true

/-- A concrete replica report. -/
def exampleMessage : ModelEventMessage :=
  ⟨"iris", 1, "serverA", 0, .LOADED, 512, "ok"⟩

/-- C2: the command-issuing path and the report-ingestion path write
disjoint state sets.  Every `UpdateModelState` call a reconciliation
pass makes writes `Loading` or `Unloading` and never a report-only
state; the state `AgentEvent` persists is always one of `Loaded`,
`Unloaded`, `LoadFailed`, `Unknown` and never a command-path state. -/
theorem commandPath_reportPath_state_disjoint :
    (∀ (w : World) (gm : Except String (Option Model)) (mk : String) (v : Nat)
       (sv : String) (r : Nat) (mem : Option Nat) (s : ModelReplicaState)
       (msg : String) (ok : Bool),
       SyncEvent.update mk v sv r mem s msg ok ∈ Server.Sync w gm →
       (s = .Loading ∨ s = .Unloading) ∧
       s ≠ .Loaded ∧ s ≠ .Unloaded ∧ s ≠ .LoadFailed) ∧
    (∀ (updateErr : UpdateCall → Option String) (message : ModelEventMessage),
       ((Server.AgentEvent updateErr message).2.state = .Loaded ∨
        (Server.AgentEvent updateErr message).2.state = .Unloaded ∨
        (Server.AgentEvent updateErr message).2.state = .LoadFailed ∨
        (Server.AgentEvent updateErr message).2.state = .ModelReplicaStateUnknown) ∧
       (Server.AgentEvent updateErr message).2.state ≠ .Loading ∧
       (Server.AgentEvent updateErr message).2.state ≠ .Unloading ∧
       (Server.AgentEvent updateErr message).2.state ≠ .LoadRequested ∧
       (Server.AgentEvent updateErr message).2.state ≠ .UnloadRequested) := by
  constructor
  · intro w gm mk v sv r mem s msg ok h
    rcases sync_update_state_cases h with rfl | rfl <;> simp
  · intro updateErr message
    rw [AgentEvent_call]
    rcases message with ⟨mn, mv, sn, ri, ev, mb, ms⟩
    cases ev <;> simp [eventToState]

/-- Witness for C2 at a concrete reconciliation trace containing an
`UpdateModelState` call. -/
theorem commandPath_reportPath_state_disjoint_witness :
    (ModelReplicaState.Loading = .Loading ∨ ModelReplicaState.Loading = .Unloading) ∧
    ModelReplicaState.Loading ≠ .Loaded ∧
    ModelReplicaState.Loading ≠ .Unloaded ∧
    ModelReplicaState.Loading ≠ .LoadFailed :=
  commandPath_reportPath_state_disjoint.1 exampleWorld (.ok (some exampleModel))
    "iris" 1 "serverA" 0 none .Loading "" true (by decide)

/-- C5: the report handler's event-kind-to-state mapping is the fixed
total map `LOADED ↦ Loaded`, `UNLOADED ↦ Unloaded`,
`LOAD_FAILED, LOAD_FAIL_MEMORY ↦ LoadFailed`, anything else ↦
`Unknown`; `AgentEvent` persists exactly the mapped state and never
rejects a report for its kind. -/
theorem agentEvent_kind_state_mapping :
    eventToState .LOADED = .Loaded ∧
    eventToState .UNLOADED = .Unloaded ∧
    eventToState .LOAD_FAILED = .LoadFailed ∧
    eventToState .LOAD_FAIL_MEMORY = .LoadFailed ∧
    (∀ code : Nat, eventToState (.OtherEvent code) = .ModelReplicaStateUnknown) ∧
    (∀ (updateErr : UpdateCall → Option String) (message : ModelEventMessage),
       (Server.AgentEvent updateErr message).2.state = eventToState message.Event) ∧
    (∀ message : ModelEventMessage,
       (Server.AgentEvent (fun _ => none) message).1 = .ok ()) :=
  ⟨rfl, rfl, rfl, rfl, fun _ => rfl, fun _ _ => rfl, fun _ => rfl⟩

/-- C6: `AgentEvent` fails exactly when persisting the reported state
fails, and then with a `codes.Internal` error carrying the store's
error message; on successful persistence it returns the
acknowledgement. -/
theorem agentEvent_error_iff_persist_fails (updateErr : UpdateCall → Option String)
    (message : ModelEventMessage) :
    (∀ e : GrpcCode × String, (Server.AgentEvent updateErr message).1 = .error e →
       e.1 = .Internal ∧
       updateErr (Server.AgentEvent updateErr message).2 = some e.2) ∧
    ((Server.AgentEvent updateErr message).1 = .ok () ↔
       updateErr (Server.AgentEvent updateErr message).2 = none) := by
  cases hu : updateErr (Server.AgentEvent updateErr message).2 with
  | none =>
    refine ⟨fun e he => absurd he ?_, by simp [AgentEvent_fst, hu]⟩
    rw [AgentEvent_fst, hu]
    simp
  | some err =>
    refine ⟨fun e he => ?_, by simp [AgentEvent_fst, hu]⟩
    rw [AgentEvent_fst, hu] at he
    cases he
    exact ⟨rfl, rfl⟩

/-- Witness for C6: a store failure surfaces as a `codes.Internal`
error with the store's message. -/
theorem agentEvent_error_iff_persist_fails_witness :
    (GrpcCode.Internal, "db down").1 = GrpcCode.Internal ∧
    (fun _ : UpdateCall => some "db down")
      (Server.AgentEvent (fun _ => some "db down") exampleMessage).2 =
      some "db down" :=
  (agentEvent_error_iff_persist_fails (fun _ => some "db down") exampleMessage).1
    (.Internal, "db down") rfl

/-- C7: a reconciliation pass sends nothing to a replica that is not in
the agents registry and performs no state update for it — in
particular a pending `LoadRequested` or `UnloadRequested` replica with
no live connection keeps its state for a later pass. -/
theorem sync_skips_disconnected (w : World) (m : Model) (mv : ModelVersion) (r : Nat)
    (_hmv : mv ∈ m.Versions)
    (_hr : r ∈ mv.GetReplicaForState .LoadRequested ∨
          r ∈ mv.GetReplicaForState .UnloadRequested)
    (hnc : (⟨mv.server, r⟩ : ServerKey) ∉ w.agents) :
    (∀ (op : ModelOperation) (mn : String) (v : Nat) (ok : Bool),
       SyncEvent.send ⟨mv.server, r⟩ op mn v ok ∉ Server.Sync w (.ok (some m))) ∧
    (∀ (mk : String) (v : Nat) (mem : Option Nat) (s : ModelReplicaState)
       (msg : String) (ok : Bool),
       SyncEvent.update mk v mv.server r mem s msg ok ∉
         Server.Sync w (.ok (some m))) ∧
    (∀ (st : StoreState) (mk : String) (v : Nat),
       stateAfter st (Server.Sync w (.ok (some m))) mk v mv.server r =
         st mk v mv.server r) := by
  refine ⟨fun op mn v ok h => hnc (mem_sync_connected h),
          fun mk v mem s msg ok h => hnc (mem_sync_connected h),
          fun st mk v => stateAfter_eq_of_no_update ?_ st⟩
  exact fun mem s msg h => hnc (mem_sync_connected h)

/-- A world with no connected replica at all. -/
def exampleWorldEmpty : World where
  agents := ∅
  sendOk := fun _ _ _ _ => true
  updateOk := fun _ _ _ _ _ _ _ => true

/-- Witness for C7: with no connection for ("serverA", 0), the pass for
"iris" emits nothing for it and leaves the store untouched at its
keys. -/
theorem sync_skips_disconnected_witness :
    (∀ (op : ModelOperation) (mn : String) (v : Nat) (ok : Bool),
       SyncEvent.send ⟨exampleVersion.server, 0⟩ op mn v ok ∉
         Server.Sync exampleWorldEmpty (.ok (some exampleModel))) ∧
    (∀ (mk : String) (v : Nat) (mem : Option Nat) (s : ModelReplicaState)
       (msg : String) (ok : Bool),
       SyncEvent.update mk v exampleVersion.server 0 mem s msg ok ∉
         Server.Sync exampleWorldEmpty (.ok (some exampleModel))) ∧
    (∀ (st : StoreState) (mk : String) (v : Nat),
       stateAfter st (Server.Sync exampleWorldEmpty (.ok (some exampleModel)))
           mk v exampleVersion.server 0 =
         st mk v exampleVersion.server 0) :=
  sync_skips_disconnected exampleWorldEmpty exampleModel exampleVersion 0
    (by decide) (.inl (by decide)) (by decide)

/-- The reschedule loop calls `Schedule` once per changed model name, in
order, whatever each call's outcome oracle says. -/
theorem scheduleLoop_map_fst (scheduleErr : String → Option String)
    (models : List String) :
    (scheduleLoop scheduleErr models).map Prod.fst = models := by
  induction models with
  | nil => rfl
  | cons m rest ih => simp [scheduleLoop, ih]

/-- C4: when the stream context closes on peer disconnect, the handler
removes the replica's registry entry, calls
`store.RemoveServerReplica`, and invokes `scheduler.Schedule` exactly
once for each model name that call returned — in particular the
`Schedule` call list is the returned name list itself, for every
outcome oracle, so one model's failure never suppresses the calls for
the models after it. -/
theorem subscribe_disconnect_reschedules (agents0 : Finset ServerKey)
    (key : ServerKey) (env : SubscribeEnv)
    (hsync : Server.syncMessage env = none) :
    key ∉ (Server.Subscribe agents0 key env .ctxDone).agents ∧
    (Server.Subscribe agents0 key env .ctxDone).removeReplicaCalled = true ∧
    (Server.Subscribe agents0 key env .ctxDone).scheduleCalls.map Prod.fst =
      env.removeServerReplica.1 ∧
    (∀ mn : String,
       ((Server.Subscribe agents0 key env .ctxDone).scheduleCalls.map
         Prod.fst).count mn = env.removeServerReplica.1.count mn) := by
  simp only [Server.Subscribe, hsync]
  refine ⟨Finset.not_mem_erase key _, trivial, scheduleLoop_map_fst _ _,
    fun mn => ?_⟩
  rw [scheduleLoop_map_fst]

/-- Collaborator outcomes where every external call succeeds and a
disconnect reports "iris" as the one affected model. -/
def exampleEnvOk : SubscribeEnv where
  addServerReplicaErr := none
  scheduleFailedErr := none
  removeServerReplica := (["iris"], none)
  scheduleErr := fun _ => none

/-- Outcomes as in `exampleEnvOk` but where the disconnect reports two
affected models and rescheduling the first of them fails. -/
def exampleEnvScheduleFail : SubscribeEnv where
  addServerReplicaErr := none
  scheduleFailedErr := none
  removeServerReplica := (["iris", "mnist"], none)
  scheduleErr := fun mn => if mn = "iris" then some "no capacity" else none

/-- Witness for C4: with the first reschedule failing, both models are
still rescheduled exactly once and the entry is gone. -/
theorem subscribe_disconnect_reschedules_witness :
    (⟨"serverA", 0⟩ : ServerKey) ∉
      (Server.Subscribe ∅ ⟨"serverA", 0⟩ exampleEnvScheduleFail .ctxDone).agents ∧
    (Server.Subscribe ∅ ⟨"serverA", 0⟩ exampleEnvScheduleFail
        .ctxDone).removeReplicaCalled = true ∧
    (Server.Subscribe ∅ ⟨"serverA", 0⟩ exampleEnvScheduleFail
        .ctxDone).scheduleCalls.map Prod.fst =
      exampleEnvScheduleFail.removeServerReplica.1 ∧
    (∀ mn : String,
       ((Server.Subscribe ∅ ⟨"serverA", 0⟩ exampleEnvScheduleFail
           .ctxDone).scheduleCalls.map Prod.fst).count mn =
         exampleEnvScheduleFail.removeServerReplica.1.count mn) :=
  subscribe_disconnect_reschedules ∅ ⟨"serverA", 0⟩ exampleEnvScheduleFail rfl

/-- C10: when the initial synchronization of a subscribe fails, the
handler returns the error to the caller, but the connection record
installed before the sync stays in the registry, and neither the
disconnect cleanup nor any rescheduling runs. -/
theorem subscribe_sync_failure_keeps_registry_entry (agents0 : Finset ServerKey)
    (key : ServerKey) (env : SubscribeEnv) (signal : CloseSignal) (e : String)
    (hsync : Server.syncMessage env = some e) :
    (Server.Subscribe agents0 key env signal).result = some e ∧
    key ∈ (Server.Subscribe agents0 key env signal).agents ∧
    (Server.Subscribe agents0 key env signal).scheduleCalls = [] ∧
    (Server.Subscribe agents0 key env signal).removeReplicaCalled = false := by
  simp only [Server.Subscribe, hsync]
  exact ⟨trivial, Finset.mem_insert_self key agents0, trivial, trivial⟩

/-- Collaborator outcomes where `store.AddServerReplica` fails. -/
def exampleEnvAddFail : SubscribeEnv where
  addServerReplicaErr := some "add failed"
  scheduleFailedErr := none
  removeServerReplica := ([], none)
  scheduleErr := fun _ => none

/-- Witness for C10 at a concrete failing `AddServerReplica`. -/
theorem subscribe_sync_failure_keeps_registry_entry_witness :
    (Server.Subscribe ∅ ⟨"serverA", 0⟩ exampleEnvAddFail .ctxDone).result =
      some "add failed" ∧
    (⟨"serverA", 0⟩ : ServerKey) ∈
      (Server.Subscribe ∅ ⟨"serverA", 0⟩ exampleEnvAddFail .ctxDone).agents ∧
    (Server.Subscribe ∅ ⟨"serverA", 0⟩ exampleEnvAddFail .ctxDone).scheduleCalls =
      [] ∧
    (Server.Subscribe ∅ ⟨"serverA", 0⟩ exampleEnvAddFail
        .ctxDone).removeReplicaCalled = false :=
  subscribe_sync_failure_keeps_registry_entry ∅ ⟨"serverA", 0⟩ exampleEnvAddFail
    .ctxDone "add failed" rfl

/-- C9 counterexample: on the explicit close (`finished`) signal the
handler returns nil without removing the registry entry — after a
successful subscribe of ("serverA", 0) closed via the explicit signal,
the entry is still in the agents map, so the claim that both
termination paths end with the entry absent is false. -/
theorem subscribe_explicit_close_keeps_entry_counterexample :
    (Server.Subscribe ∅ ⟨"serverA", 0⟩ exampleEnvOk .finishedChan).result = none ∧
    (⟨"serverA", 0⟩ : ServerKey) ∈
      (Server.Subscribe ∅ ⟨"serverA", 0⟩ exampleEnvOk .finishedChan).agents := by
  exact ⟨rfl, Finset.mem_insert_self _ _⟩

/-- C9 amended: the registry entry is removed when the connection closes
via peer disconnect; on the explicit close signal the handler simply
returns nil and the entry stays in the registry. -/
theorem subscribe_entry_removed_only_on_disconnect (agents0 : Finset ServerKey)
    (key : ServerKey) (env : SubscribeEnv)
    (hsync : Server.syncMessage env = none) :
    key ∉ (Server.Subscribe agents0 key env .ctxDone).agents ∧
    (Server.Subscribe agents0 key env .finishedChan).agents =
      insert key agents0 ∧
    (Server.Subscribe agents0 key env .finishedChan).result = none := by
  simp only [Server.Subscribe, hsync]
  exact ⟨Finset.not_mem_erase key _, trivial, trivial⟩

/-- Witness for the amended C9. -/
theorem subscribe_entry_removed_only_on_disconnect_witness :
    (⟨"serverA", 0⟩ : ServerKey) ∉
      (Server.Subscribe ∅ ⟨"serverA", 0⟩ exampleEnvOk .ctxDone).agents ∧
    (Server.Subscribe ∅ ⟨"serverA", 0⟩ exampleEnvOk .finishedChan).agents =
      insert ⟨"serverA", 0⟩ ∅ ∧
    (Server.Subscribe ∅ ⟨"serverA", 0⟩ exampleEnvOk .finishedChan).result =
      none :=
  subscribe_entry_removed_only_on_disconnect ∅ ⟨"serverA", 0⟩ exampleEnvOk rfl

theorem sync_ok_some (w : World) (m : Model) :
    Server.Sync w (.ok (some m)) = syncLoads w m ++ syncUnloads w m := rfl

/-- Membership in the replica-state table read by the loops. -/
theorem mem_GetReplicaForState {mv : ModelVersion} {s : ModelReplicaState} {r : Nat} :
    r ∈ mv.GetReplicaForState s ↔ (r, s) ∈ mv.replicaStates := by
  unfold ModelVersion.GetReplicaForState
  simp only [List.mem_map, List.mem_filter, decide_eq_true_eq]
  constructor
  · rintro ⟨⟨r1, s1⟩, ⟨hp, hs⟩, rfl⟩
    cases hs
    exact hp
  · intro hp
    exact ⟨(r, s), ⟨hp, rfl⟩, rfl⟩

/-- With distinct replica keys in a version's table, a replica index is
in at most one state's list. -/
theorem state_unique_of_nodup {mv : ModelVersion}
    (h : (mv.replicaStates.map Prod.fst).Nodup) {r : Nat}
    {s1 s2 : ModelReplicaState} (h1 : r ∈ mv.GetReplicaForState s1)
    (h2 : r ∈ mv.GetReplicaForState s2) : s1 = s2 := by
  rw [mem_GetReplicaForState] at h1 h2
  have := List.inj_on_of_nodup_map h h1 h2 rfl
  simpa using congrArg Prod.snd this

/-- With distinct version numbers, a version of the model is determined
by its number. -/
theorem version_unique_of_nodup {m : Model}
    (h : (m.Versions.map ModelVersion.version).Nodup) {mv1 mv2 : ModelVersion}
    (h1 : mv1 ∈ m.Versions) (h2 : mv2 ∈ m.Versions)
    (he : mv1.version = mv2.version) : mv1 = mv2 :=
  List.inj_on_of_nodup_map h h1 h2 he

/-- The latest version is one of the model's versions. -/
theorem GetLatest_mem {m : Model} {lv : ModelVersion}
    (h : m.GetLatest = some lv) : lv ∈ m.Versions := by
  unfold Model.GetLatest at h
  cases hv : m.Versions with
  | nil => rw [hv] at h; simp at h
  | cons x xs =>
    rw [hv, List.getLast?_eq_getLast _ (by simp)] at h
    have he : lv = (x :: xs).getLast (by simp) := (Option.some_inj.mp h).symm
    rw [he]
    exact List.getLast_mem _

theorem syncLoadReplica_eq_of_send_ok {w : World} {lv : ModelVersion} {r : Nat}
    (hconn : (⟨lv.server, r⟩ : ServerKey) ∈ w.agents)
    (hs : w.sendOk ⟨lv.server, r⟩ .LOAD_MODEL lv.model lv.version = true) :
    syncLoadReplica w lv r =
      [.send ⟨lv.server, r⟩ .LOAD_MODEL lv.model lv.version true,
       .update lv.model lv.version lv.server r none .Loading ""
         (w.updateOk lv.model lv.version lv.server r none .Loading "")] := by
  simp [syncLoadReplica, hconn, hs]

theorem syncUnloadReplica_eq_of_send_ok {w : World} {mv : ModelVersion} {r : Nat}
    (hconn : (⟨mv.server, r⟩ : ServerKey) ∈ w.agents)
    (hs : w.sendOk ⟨mv.server, r⟩ .UNLOAD_MODEL mv.model mv.version = true) :
    syncUnloadReplica w mv r =
      [.send ⟨mv.server, r⟩ .UNLOAD_MODEL mv.model mv.version true,
       .update mv.model mv.version mv.server r none .Unloading ""
         (w.updateOk mv.model mv.version mv.server r none .Unloading "")] := by
  simp [syncUnloadReplica, hconn, hs]

/-- A load block sits inside the whole pass trace. -/
theorem syncLoadReplica_inside_trace {w : World} {m : Model} {lv : ModelVersion} {r : Nat}
    (hl : m.GetLatest = some lv)
    (hr : r ∈ lv.GetReplicaForState .LoadRequested) :
    syncLoadReplica w lv r <:+: Server.Sync w (.ok (some m)) := by
  rw [sync_ok_some]
  refine isInfix_append_left _ ?_
  unfold syncLoads
  rw [hl]
  exact block_infix_flatMap _ hr

/-- An unload block sits inside the whole pass trace. -/
theorem syncUnloadReplica_inside_trace {w : World} {m : Model} {mv : ModelVersion} {r : Nat}
    (hmv : mv ∈ m.Versions)
    (hr : r ∈ mv.GetReplicaForState .UnloadRequested) :
    syncUnloadReplica w mv r <:+: Server.Sync w (.ok (some m)) := by
  rw [sync_ok_some]
  refine isInfix_append_right _ ?_
  unfold syncUnloads
  have h1 : syncUnloadReplica w mv r <:+:
      (mv.GetReplicaForState .UnloadRequested).flatMap (syncUnloadReplica w mv) :=
    block_infix_flatMap _ hr
  exact h1.trans (block_infix_flatMap
    (fun mv2 => (mv2.GetReplicaForState .UnloadRequested).flatMap
      (syncUnloadReplica w mv2)) hmv)

/-- C3: in a reconciliation pass, `LOAD_MODEL` is sent only to
`LoadRequested` replicas of the model's latest version (and to every
connected one of them), while `UNLOAD_MODEL` is sent to every connected
`UnloadRequested` replica of every version (and only to those). -/
theorem sync_load_latest_unload_all_versions (w : World) (m : Model) :
    (∀ (key : ServerKey) (mn : String) (v : Nat) (ok : Bool),
       SyncEvent.send key .LOAD_MODEL mn v ok ∈ Server.Sync w (.ok (some m)) →
       ∃ lv, m.GetLatest = some lv ∧ key.serverName = lv.server ∧
         key.replicaIdx ∈ lv.GetReplicaForState .LoadRequested ∧
         mn = lv.model ∧ v = lv.version) ∧
    (∀ lv, m.GetLatest = some lv →
       ∀ r ∈ lv.GetReplicaForState .LoadRequested,
         (⟨lv.server, r⟩ : ServerKey) ∈ w.agents →
         SyncEvent.send ⟨lv.server, r⟩ .LOAD_MODEL lv.model lv.version
             (w.sendOk ⟨lv.server, r⟩ .LOAD_MODEL lv.model lv.version) ∈
           Server.Sync w (.ok (some m))) ∧
    (∀ mv ∈ m.Versions, ∀ r ∈ mv.GetReplicaForState .UnloadRequested,
       (⟨mv.server, r⟩ : ServerKey) ∈ w.agents →
       SyncEvent.send ⟨mv.server, r⟩ .UNLOAD_MODEL mv.model mv.version
           (w.sendOk ⟨mv.server, r⟩ .UNLOAD_MODEL mv.model mv.version) ∈
         Server.Sync w (.ok (some m))) ∧
    (∀ (key : ServerKey) (mn : String) (v : Nat) (ok : Bool),
       SyncEvent.send key .UNLOAD_MODEL mn v ok ∈ Server.Sync w (.ok (some m)) →
       ∃ mv, mv ∈ m.Versions ∧ key.serverName = mv.server ∧
         key.replicaIdx ∈ mv.GetReplicaForState .UnloadRequested ∧
         mn = mv.model ∧ v = mv.version) := by
  refine ⟨?_, ?_, ?_, ?_⟩
  · intro key mn v ok h
    rcases mem_sync_cases h with ⟨lv, hl, r2, hr2, he⟩ | ⟨mv, _, r2, hr2, he⟩
    · rcases mem_syncLoadReplica he with ⟨_, hc | ⟨_, hc⟩⟩
      · cases hc
        exact ⟨lv, hl, rfl, hr2, rfl, rfl⟩
      · exact absurd hc (by simp)
    · rcases mem_syncUnloadReplica he with ⟨_, hc | ⟨_, hc⟩⟩
      · cases hc
      · exact absurd hc (by simp)
  · intro lv hl r hr hconn
    have hblock : SyncEvent.send ⟨lv.server, r⟩ .LOAD_MODEL lv.model lv.version
        (w.sendOk ⟨lv.server, r⟩ .LOAD_MODEL lv.model lv.version) ∈
        syncLoadReplica w lv r := by
      cases hs : w.sendOk ⟨lv.server, r⟩ .LOAD_MODEL lv.model lv.version <;>
        simp [syncLoadReplica, hconn, hs]
    exact (syncLoadReplica_inside_trace hl hr).subset hblock
  · intro mv hmv r hr hconn
    have hblock : SyncEvent.send ⟨mv.server, r⟩ .UNLOAD_MODEL mv.model mv.version
        (w.sendOk ⟨mv.server, r⟩ .UNLOAD_MODEL mv.model mv.version) ∈
        syncUnloadReplica w mv r := by
      cases hs : w.sendOk ⟨mv.server, r⟩ .UNLOAD_MODEL mv.model mv.version <;>
        simp [syncUnloadReplica, hconn, hs]
    exact (syncUnloadReplica_inside_trace hmv hr).subset hblock
  · intro key mn v ok h
    rcases mem_sync_cases h with ⟨lv, _, r2, hr2, he⟩ | ⟨mv, hmv, r2, hr2, he⟩
    · rcases mem_syncLoadReplica he with ⟨_, hc | ⟨_, hc⟩⟩
      · cases hc
      · exact absurd hc (by simp)
    · rcases mem_syncUnloadReplica he with ⟨_, hc | ⟨_, hc⟩⟩
      · cases hc
        exact ⟨mv, hmv, rfl, hr2, rfl, rfl⟩
      · exact absurd hc (by simp)

/-- Witness for C3: in the concrete two-version model below, the pass
sends the load for the latest version's pending replica. -/
def exampleOldVersion : ModelVersion :=
  ⟨"iris", 0, "serverA", [(1, .UnloadRequested)]⟩

def exampleTwoVersionModel : Model := ⟨[exampleOldVersion, exampleVersion]⟩

def exampleWorldTwo : World where
  agents := {⟨"serverA", 0⟩, ⟨"serverA", 1⟩}
  sendOk := fun _ _ _ _ => true
  updateOk := fun _ _ _ _ _ _ _ => true

theorem sync_load_latest_unload_all_versions_witness :
    SyncEvent.send ⟨"serverA", 1⟩ .UNLOAD_MODEL "iris" 0
        (exampleWorldTwo.sendOk ⟨"serverA", 1⟩ .UNLOAD_MODEL "iris" 0) ∈
      Server.Sync exampleWorldTwo (.ok (some exampleTwoVersionModel)) :=
  (sync_load_latest_unload_all_versions exampleWorldTwo
      exampleTwoVersionModel).2.2.1 exampleOldVersion (by decide) 1 (by decide)
    (by decide)

/-- C1: no state transition on a failed send.  In a reconciliation pass
over a model whose versions have distinct version numbers and whose
per-version replica tables have distinct replica keys: (a) a
`LoadRequested` replica of the latest version whose `LOAD_MODEL` send
fails gets no `UpdateModelState` call at all, so its store cell — in
particular a cell holding `LoadRequested` — is unchanged by the pass;
(b) likewise for an `UnloadRequested` replica whose `UNLOAD_MODEL` send
fails; (c) every `UpdateModelState` call of the pass is immediately
preceded in the trace by the successful send for the same replica and
version. -/
theorem sync_no_state_advance_on_send_failure (w : World) (m : Model)
    (hkeys : ∀ mv ∈ m.Versions, (mv.replicaStates.map Prod.fst).Nodup)
    (hvers : (m.Versions.map ModelVersion.version).Nodup) :
    (∀ lv, m.GetLatest = some lv →
       ∀ r ∈ lv.GetReplicaForState .LoadRequested,
         w.sendOk ⟨lv.server, r⟩ .LOAD_MODEL lv.model lv.version = false →
         (∀ (mem : Option Nat) (s : ModelReplicaState) (msg : String) (ok : Bool),
            SyncEvent.update lv.model lv.version lv.server r mem s msg ok ∉
              Server.Sync w (.ok (some m))) ∧
         (∀ st : StoreState,
            stateAfter st (Server.Sync w (.ok (some m)))
                lv.model lv.version lv.server r =
              st lv.model lv.version lv.server r)) ∧
    (∀ mv ∈ m.Versions, ∀ r ∈ mv.GetReplicaForState .UnloadRequested,
       w.sendOk ⟨mv.server, r⟩ .UNLOAD_MODEL mv.model mv.version = false →
       (∀ (mem : Option Nat) (s : ModelReplicaState) (msg : String) (ok : Bool),
          SyncEvent.update mv.model mv.version mv.server r mem s msg ok ∉
            Server.Sync w (.ok (some m))) ∧
       (∀ st : StoreState,
          stateAfter st (Server.Sync w (.ok (some m)))
              mv.model mv.version mv.server r =
            st mv.model mv.version mv.server r)) ∧
    (∀ (mk : String) (v : Nat) (sv : String) (r : Nat) (mem : Option Nat)
       (s : ModelReplicaState) (msg : String) (ok : Bool),
       SyncEvent.update mk v sv r mem s msg ok ∈ Server.Sync w (.ok (some m)) →
       ∃ op : ModelOperation,
         [SyncEvent.send ⟨sv, r⟩ op mk v true,
          SyncEvent.update mk v sv r mem s msg ok] <:+:
           Server.Sync w (.ok (some m))) := by
  refine ⟨?_, ?_, ?_⟩
  · intro lv hl r hr hfail
    have hlm : lv ∈ m.Versions := GetLatest_mem hl
    have hno : ∀ (mem : Option Nat) (s : ModelReplicaState) (msg : String)
        (ok : Bool),
        SyncEvent.update lv.model lv.version lv.server r mem s msg ok ∉
          Server.Sync w (.ok (some m)) := by
      intro mem s msg ok h
      rcases mem_sync_cases h with ⟨lv2, hl2, r2, hr2, he⟩ | ⟨mv, hmv, r2, hr2, he⟩
      · rw [hl] at hl2
        cases Option.some_inj.mp hl2
        rcases mem_syncLoadReplica he with ⟨_, hc | ⟨hs, hc⟩⟩
        · exact absurd hc (by simp)
        · injection hc with h1 h2 h3 h4 h5 h6 h7 h8
          rw [h4] at hfail
          exact Bool.false_ne_true (hfail.symm.trans hs)
      · rcases mem_syncUnloadReplica he with ⟨_, hc | ⟨hs, hc⟩⟩
        · exact absurd hc (by simp)
        · injection hc with h1 h2 h3 h4 h5 h6 h7 h8
          have hveq : lv = mv := version_unique_of_nodup hvers hlm hmv h2
          rw [← hveq, ← h4] at hr2
          exact absurd (state_unique_of_nodup (hkeys lv hlm) hr hr2) (by simp)
    exact ⟨hno, fun st =>
      stateAfter_eq_of_no_update (fun mem s msg => hno mem s msg true) st⟩
  · intro mv hmv r hr hfail
    have hno : ∀ (mem : Option Nat) (s : ModelReplicaState) (msg : String)
        (ok : Bool),
        SyncEvent.update mv.model mv.version mv.server r mem s msg ok ∉
          Server.Sync w (.ok (some m)) := by
      intro mem s msg ok h
      rcases mem_sync_cases h with ⟨lv, hl, r2, hr2, he⟩ | ⟨mv2, hmv2, r2, hr2, he⟩
      · have hlm : lv ∈ m.Versions := GetLatest_mem hl
        rcases mem_syncLoadReplica he with ⟨_, hc | ⟨hs, hc⟩⟩
        · exact absurd hc (by simp)
        · injection hc with h1 h2 h3 h4 h5 h6 h7 h8
          have hveq : mv = lv := version_unique_of_nodup hvers hmv hlm h2
          rw [← hveq, ← h4] at hr2
          exact absurd (state_unique_of_nodup (hkeys mv hmv) hr2 hr) (by simp)
      · rcases mem_syncUnloadReplica he with ⟨_, hc | ⟨hs, hc⟩⟩
        · exact absurd hc (by simp)
        · injection hc with h1 h2 h3 h4 h5 h6 h7 h8
          have hveq : mv = mv2 := version_unique_of_nodup hvers hmv hmv2 h2
          rw [← hveq] at hs
          rw [h4] at hfail
          exact Bool.false_ne_true (hfail.symm.trans hs)
    exact ⟨hno, fun st =>
      stateAfter_eq_of_no_update (fun mem s msg => hno mem s msg true) st⟩
  · intro mk v sv r mem s msg ok h
    rcases mem_sync_cases h with ⟨lv, hl, r2, hr2, he⟩ | ⟨mv, hmv, r2, hr2, he⟩
    · rcases mem_syncLoadReplica he with ⟨hconn, hc | ⟨hs, hc⟩⟩
      · exact absurd hc (by simp)
      · cases hc
        refine ⟨.LOAD_MODEL, ?_⟩
        have hb := syncLoadReplica_eq_of_send_ok hconn hs
        have hi := syncLoadReplica_inside_trace (w := w) hl hr2
        rw [hb] at hi
        exact hi
    · rcases mem_syncUnloadReplica he with ⟨hconn, hc | ⟨hs, hc⟩⟩
      · exact absurd hc (by simp)
      · cases hc
        refine ⟨.UNLOAD_MODEL, ?_⟩
        have hb := syncUnloadReplica_eq_of_send_ok hconn hs
        have hi := syncUnloadReplica_inside_trace (w := w) hmv hr2
        rw [hb] at hi
        exact hi

/-- A world where the replica is connected but every transport send
fails. -/
def exampleWorldSendFail : World where
  agents := {⟨"serverA", 0⟩}
  sendOk := fun _ _ _ _ => false
  updateOk := fun _ _ _ _ _ _ _ => true

/-- Witness for C1: with the send failing for the pending load of
replica ("serverA", 0), the pass makes no `UpdateModelState` call for
it and its store cell keeps its value. -/
theorem sync_no_state_advance_on_send_failure_witness :
    (∀ (mem : Option Nat) (s : ModelReplicaState) (msg : String) (ok : Bool),
       SyncEvent.update exampleVersion.model exampleVersion.version
           exampleVersion.server 0 mem s msg ok ∉
         Server.Sync exampleWorldSendFail (.ok (some exampleModel))) ∧
    (∀ st : StoreState,
       stateAfter st (Server.Sync exampleWorldSendFail (.ok (some exampleModel)))
           exampleVersion.model exampleVersion.version exampleVersion.server 0 =
         st exampleVersion.model exampleVersion.version exampleVersion.server 0) :=
  (sync_no_state_advance_on_send_failure exampleWorldSendFail exampleModel
      (by decide) (by decide)).1 exampleVersion (by decide) 0 (by decide) rfl

/-- An effect of the subscribe-time initial synchronization: a
reconciliation of one model, or the `scheduler.ScheduleFailedModels`
retry pass. -/
inductive SubscribeEffect
  | syncModel (modelName : String)
  | scheduleFailedModels
deriving DecidableEq, Repr

/-- Modelled from the spec: the reconciliation side of
`store.AddServerReplica`, whose body is outside the shown source.  Per
the spec, a successful subscribe performs "an initial full
synchronization pass equivalent to replaying reconciliation for every
model already assigned to that replica"; `assignedModels` is the
store's list of models already assigned to the subscribing replica,
each of which gets one reconciliation trigger. -/
def addServerReplicaSyncs (assignedModels : List String) : List SubscribeEffect :=
  assignedModels.map .syncModel

/-- The effects of `Server.syncMessage` (lines 224-238) on the success
path of `store.AddServerReplica`: the spec-modelled reconciliation
triggers of the store call, then the `ScheduleFailedModels` retry pass.
If `AddServerReplica` fails, the handler returns at once and nothing is
triggered. -/
def syncMessageEffects (env : SubscribeEnv) (assignedModels : List String) :
    List SubscribeEffect :=
  match env.addServerReplicaErr with
  | some _ => []
  | none => addServerReplicaSyncs assignedModels ++ [.scheduleFailedModels]

/-- The spec's own wording of the initial synchronization, as a second
definition to compare against: replay reconciliation for every model
already assigned to the replica, and additionally trigger the
retry-scheduling pass for currently unplaceable models. -/
def specInitialSync (assignedModels : List String) : List SubscribeEffect :=
  assignedModels.map .syncModel ++ [.scheduleFailedModels]

/-- Expanding one initial-synchronization effect into the trace it
causes: a reconciliation trigger for model `mn` runs `Server.Sync` on
the store's answer for `mn` (the dispatcher of `ListenForSyncs` runs
`Sync` per trigger); the retry-scheduling pass emits no load/unload
trace of its own. -/
def dispatchEffect (w : World) (getModel : String → Except String (Option Model)) :
    SubscribeEffect → List SyncEvent
  | .syncModel mn => Server.Sync w (getModel mn)
  | .scheduleFailedModels => []

/-- Replaying reconciliation for a list of models, one `Server.Sync`
pass each, in order. -/
def replayReconciliation (w : World)
    (getModel : String → Except String (Option Model))
    (models : List String) : List SyncEvent :=
  models.flatMap (fun mn => Server.Sync w (getModel mn))

/-- C8: on a subscribe whose collaborator calls succeed, the initial
synchronization performed after installing the connection record is
exactly the spec's description: its effects are one reconciliation
trigger per model already assigned to the replica plus the
`ScheduleFailedModels` retry pass, expanding to a replay of
reconciliation for every assigned model; and the connection record
installed before the sync is in the registry when the handler later
returns. -/
theorem subscribe_initial_sync_replays_reconciliation (env : SubscribeEnv)
    (assigned : List String) (agents0 : Finset ServerKey) (key : ServerKey)
    (w : World) (getModel : String → Except String (Option Model))
    (hadd : env.addServerReplicaErr = none)
    (hsf : env.scheduleFailedErr = none) :
    syncMessageEffects env assigned = specInitialSync assigned ∧
    (syncMessageEffects env assigned).flatMap (dispatchEffect w getModel) =
      replayReconciliation w getModel assigned ∧
    SubscribeEffect.scheduleFailedModels ∈ syncMessageEffects env assigned ∧
    (Server.Subscribe agents0 key env .finishedChan).agents =
      insert key agents0 := by
  have h1 : syncMessageEffects env assigned = specInitialSync assigned := by
    simp [syncMessageEffects, hadd, addServerReplicaSyncs, specInitialSync]
  refine ⟨h1, ?_, ?_, ?_⟩
  · rw [h1]
    clear h1
    unfold specInitialSync replayReconciliation
    induction assigned with
    | nil => rfl
    | cons mn rest ih => simpa [dispatchEffect] using ih
  · rw [h1]
    unfold specInitialSync
    exact List.mem_append_right _ (List.mem_singleton.mpr rfl)
  · simp [Server.Subscribe, Server.syncMessage, hadd, hsf]

/-- Witness for C8 with one assigned model and all collaborators
succeeding. -/
theorem subscribe_initial_sync_replays_reconciliation_witness :
    syncMessageEffects exampleEnvOk ["iris"] = specInitialSync ["iris"] ∧
    (syncMessageEffects exampleEnvOk ["iris"]).flatMap
        (dispatchEffect exampleWorld (fun _ => .ok (some exampleModel))) =
      replayReconciliation exampleWorld (fun _ => .ok (some exampleModel))
        ["iris"] ∧
    SubscribeEffect.scheduleFailedModels ∈ syncMessageEffects exampleEnvOk
      ["iris"] ∧
    (Server.Subscribe ∅ ⟨"serverA", 0⟩ exampleEnvOk .finishedChan).agents =
      insert ⟨"serverA", 0⟩ ∅ :=
  subscribe_initial_sync_replays_reconciliation exampleEnvOk ["iris"] ∅
    ⟨"serverA", 0⟩ exampleWorld (fun _ => .ok (some exampleModel)) rfl rfl

end SeldonAgent
